import Mathlib

set_option linter.unusedVariables false

/-!
Verification of the stateful interaction engine of `bot.py` (polls,
anti-ping strike escalation, tickets).  Python dictionaries are embedded
as insertion-ordered association lists with `dget` / `dset` mirroring
`dict.get(k, d)` and `d[k] = v`.  Timestamps are naturals (seconds, or
milliseconds where the source uses them).  `async` calls to the platform
are modelled as explicit step traces where a claim is about effect
ordering.
-/

namespace Bot

/-- `m.get(k, d)` on a Python dict embedded as an association list. -/
def dget {α β : Type} [DecidableEq α] (m : List (α × β)) (k : α) (d : β) : β :=
  match m with
  | [] => d
  | e :: rest => if e.1 = k then e.2 else dget rest k d

/-- `m.get(k)` returning `None` when absent. -/
def dgetOpt {α β : Type} [DecidableEq α] (m : List (α × β)) (k : α) : Option β :=
  match m with
  | [] => none
  | e :: rest => if e.1 = k then some e.2 else dgetOpt rest k

/-- `m[k] = v`: replace in place if the key is present, else append. -/
def dset {α β : Type} [DecidableEq α] (m : List (α × β)) (k : α) (v : β) :
    List (α × β) :=
  match m with
  | [] => [(k, v)]
  | e :: rest => if e.1 = k then (k, v) :: rest else e :: dset rest k v

/-- `m.pop(k, None)`'s effect on the dict: drop the entry for `k`. -/
def dpop {α β : Type} [DecidableEq α] (m : List (α × β)) (k : α) :
    List (α × β) :=
  match m with
  | [] => []
  | e :: rest => if e.1 = k then dpop rest k else e :: dpop rest k

/-- `sum(m.values())`. -/
def sumValues {α : Type} (m : List (α × Nat)) : Nat := (m.map Prod.snd).sum

/-- An embedded dict is well formed when no key occurs twice; Python
dicts satisfy this by construction. -/
def NodupKeys {α β : Type} (m : List (α × β)) : Prop :=
  List.Pairwise (fun a b => a.1 ≠ b.1) m

/-! ## Poll data model (`active_polls` entries, bot.py lines 587-601) -/

/-- One entry of `active_polls`.  `votes` maps option index to count and
`voters` maps user id to the currently chosen option index.  Option
indices are `Int` because the handler obtains them from Python
`int(idx_str)`, which can produce any integer. -/
structure Poll where
  question : String
  options : List String
  votes : List (Int × Nat)
  voters : List (Nat × Int)
  ended : Bool
  endTs : Nat
  voterRoleId : Option Nat
  deriving DecidableEq, Repr

/-- The fresh poll dict built by `poll_cmd` (bot.py lines 587-601). -/
def mkPoll (question : String) (options : List String) (endTs : Nat)
    (voterRoleId : Option Nat) : Poll :=
  { question := question, options := options, votes := [], voters := [],
    ended := false, endTs := endTs, voterRoleId := voterRoleId }

/-- Outcome of the `poll_` component branch of `on_interaction`. -/
inductive VoteOutcome where
  | endedOrMissing
  | notAllowed
  | malformed
  | alreadySame
  | applied
  deriving DecidableEq, Repr

/-- One inbound button press: the pressing user, the member's role ids as
resolved by `guild.get_member` (`none` when the member lookup fails), and
the result of `int(idx_str)` (`none` when it raises). -/
structure VoteEvent where
  userId : Nat
  memRoles : Option (List Nat)
  idx : Option Int
  deriving DecidableEq, Repr

/-- The tally/voters mutation of `on_interaction` (bot.py lines 699-703):
decrement the previous choice with `max(0, votes.get(prev, 1) - 1)`,
increment the new choice, record the new choice. -/
def applyVoteState (p : Poll) (userId : Nat) (optionIndex : Int) : Poll :=
  let votes1 :=
    match dgetOpt p.voters userId with
    | some prev => dset p.votes prev (dget p.votes prev 1 - 1)
    | none => p.votes
  let votes2 := dset votes1 optionIndex (dget votes1 optionIndex 0 + 1)
  { p with votes := votes2, voters := dset p.voters userId optionIndex }

/-- The full `poll_` vote branch of `on_interaction` (bot.py lines
676-703) acting on one poll: ended check, voter-role gate, index parse,
same-vote check, then the tally mutation.  Returns the outcome and the
poll state afterwards. -/
def voteInteraction (p : Poll) (e : VoteEvent) : VoteOutcome × Poll :=
  if p.ended then (.endedOrMissing, p)
  else
    match p.voterRoleId with
    | some roleId =>
      match e.memRoles with
      | none => (.notAllowed, p)
      | some roles =>
        if roleId ∈ roles then voteCore p e else (.notAllowed, p)
    | none => voteCore p e
where
  voteCore (p : Poll) (e : VoteEvent) : VoteOutcome × Poll :=
    match e.idx with
    | none => (.malformed, p)
    | some optionIndex =>
      match dgetOpt p.voters e.userId with
      | some prev =>
        if prev = optionIndex then (.alreadySame, p)
        else (.applied, applyVoteState p e.userId optionIndex)
      | none => (.applied, applyVoteState p e.userId optionIndex)

/-- Fold a sequence of button presses over one poll. -/
def runVotes (p : Poll) (evs : List VoteEvent) : Poll :=
  evs.foldl (fun q e => (voteInteraction q e).2) p

/-- How many voters currently have option `i` as their recorded choice. -/
def countChoice (voters : List (Nat × Int)) (i : Int) : Nat :=
  match voters with
  | [] => 0
  | uv :: rest => (if uv.2 = i then 1 else 0) + countChoice rest i

/-- Drop every voter whose recorded choice is `i` (proof device for the
tally-sum argument). -/
def removeChoice (voters : List (Nat × Int)) (i : Int) : List (Nat × Int) :=
  match voters with
  | [] => []
  | uv :: rest =>
    if uv.2 = i then removeChoice rest i else uv :: removeChoice rest i

/-- Well-formedness of a poll's vote bookkeeping: both dicts have unique
keys, the stored tally of each option equals the number of voters whose
recorded choice it is, and every recorded choice has a tally entry. -/
def PollWF (p : Poll) : Prop :=
  NodupKeys p.voters ∧ NodupKeys p.votes ∧
    (∀ k : Int, dget p.votes k 0 = countChoice p.voters k) ∧
    (∀ uv ∈ p.voters, (dgetOpt p.votes uv.2).isSome)

/-- The voter-role gate of the handler lets the event through. -/
def GatePasses (p : Poll) (e : VoteEvent) : Prop :=
  p.voterRoleId = none ∨
    ∃ rid roles, p.voterRoleId = some rid ∧ e.memRoles = some roles ∧
      rid ∈ roles

/-- The spec's worked scenario: the fresh "Pizza or Tacos?" poll. -/
def pizzaStart : Poll := mkPoll "Pizza or Tacos?" ["Pizza", "Tacos"] 0 none

/-- The scenario after user A (id 1) votes 0 and user B (id 2) votes 1. -/
def pizzaAfterTwo : Poll :=
  runVotes pizzaStart [⟨1, none, some 0⟩, ⟨2, none, some 1⟩]

/-- The scenario after A additionally switches to option 1. -/
def pizzaFinal : Poll :=
  runVotes pizzaStart
    [⟨1, none, some 0⟩, ⟨2, none, some 1⟩, ⟨1, none, some 1⟩]

/-! ## Poll store level (`active_polls`, creation and closing) -/

abbrev PollStore := List (String × Poll)

/-- `if duration is None or duration < 1: duration = 1` (bot.py line 574). -/
def clampDuration (duration : Option Int) : Int :=
  match duration with
  | none => 1
  | some d => if d < 1 then 1 else d

/-- `end_ts = now_ts() * 1000 + duration * 3600_000` after clamping
(bot.py line 586), in milliseconds. -/
def pollEndTs (nowMs : Nat) (duration : Option Int) : Nat :=
  nowMs + (clampDuration duration).toNat * 3600000

/-- `poll_cmd` (bot.py lines 564-606): clamp the duration, validate the
option count (2 to 10), build the poll dict and store it under the
interaction id. -/
def poll_cmd (st : PollStore) (pollId question : String)
    (options : List String) (nowMs : Nat) (duration : Option Int)
    (voterRoleId : Option Nat) : PollStore :=
  if options.length < 2 then st
  else if options.length > 10 then st
  else dset st pollId
    (mkPoll question options (pollEndTs nowMs duration) voterRoleId)

/-- The `active_polls` effect of one `poll_` button press
(`on_interaction`, bot.py lines 676-703): look the poll up; when absent
nothing changes, otherwise the in-place mutation is written back. -/
def storeVote (st : PollStore) (pollId : String) (e : VoteEvent) : PollStore :=
  match dgetOpt st pollId with
  | none => st
  | some p => dset st pollId (voteInteraction p e).2

/-- Net `active_polls` effect of a completed `close_poll_internal` run
(bot.py lines 619-637): every control path pops the poll from the store
(lines 624, 629, 637).  The I/O ordering inside the call is modelled by
`closePollSteps`, and the intermediate store state between the
`ended := true` write and the eviction by `close_poll_begin` /
`close_poll_finish`. -/
def close_poll_internal (st : PollStore) (pollId : String) : PollStore :=
  dpop st pollId

/-- The `active_polls` state right after `close_poll_internal`'s first
line `p["ended"] = True` (bot.py line 620): the poll is still stored,
now flagged ended, while the `fetch_message` / `edit` awaits are
outstanding.  Other events can observe this state. -/
def close_poll_begin (st : PollStore) (pollId : String) : PollStore :=
  match dgetOpt st pollId with
  | none => st
  | some p => dset st pollId { p with ended := true }

/-- The eviction that ends every control path of `close_poll_internal`
(bot.py lines 624, 629, 637). -/
def close_poll_finish (st : PollStore) (pollId : String) : PollStore :=
  dpop st pollId

inductive CloseOutcome where
  | notFoundOrClosed
  | closed
  deriving DecidableEq, Repr

/-- `closepoll_cmd` (bot.py lines 646-656): a poll id absent from
`active_polls` reports "not found or already closed" and nothing
changes; otherwise the optional voter-role override is written and the
poll is closed.  There is no separate `ended` check here. -/
def closepoll_cmd (st : PollStore) (pollId : String)
    (voterRole : Option Nat) : CloseOutcome × PollStore :=
  match dgetOpt st pollId with
  | none => (.notFoundOrClosed, st)
  | some p =>
    let p1 := match voterRole with
      | some rid => { p with voterRoleId := some rid }
      | none => p
    (.closed, close_poll_internal (dset st pollId p1) pollId)

/-- The `auto_close` timer callback firing (bot.py lines 609-614):
no-op when the poll is gone or already ended, otherwise close. -/
def auto_close (st : PollStore) (pollId : String) : PollStore :=
  match dgetOpt st pollId with
  | none => st
  | some p => if p.ended then st else close_poll_internal st pollId

/-- Stores reachable from the empty `active_polls` dict through the
operations the source performs on it.  A close is not atomic: the
`closeBegin` constructor exposes the intermediate state after the
`ended := true` write at bot.py line 620 but before the eviction at
lines 624/629/637, which other events can observe during the
outstanding render awaits; `closeFinish` is the eviction, and
`closeManual` / `closeAuto` are the net effects of a close that runs to
completion without interleaving. -/
inductive ReachableStore : PollStore → Prop where
  | empty : ReachableStore []
  | create : ∀ st pid q opts now dur vr, ReachableStore st →
      ReachableStore (poll_cmd st pid q opts now dur vr)
  | vote : ∀ st pid e, ReachableStore st → ReachableStore (storeVote st pid e)
  | closeBegin : ∀ st pid, ReachableStore st →
      ReachableStore (close_poll_begin st pid)
  | closeFinish : ∀ st pid, ReachableStore st →
      ReachableStore (close_poll_finish st pid)
  | closeManual : ∀ st pid vr, ReachableStore st →
      ReachableStore (closepoll_cmd st pid vr).2
  | closeAuto : ∀ st pid, ReachableStore st →
      ReachableStore (auto_close st pid)

/-- A one-poll store obtained by running the creation command once. -/
def demoStore : PollStore := poll_cmd [] "1" "q" ["a", "b"] 0 (some 1) none

/-- The poll `demoStore` holds. -/
def demoPoll : Poll := mkPoll "q" ["a", "b"] (pollEndTs 0 (some 1)) none

/-- A poll dict whose `ended` flag has been set. -/
def demoEnded : Poll := { mkPoll "q" ["a", "b"] 0 none with ended := true }

/-- `demoStore` caught in the middle of a close: `ended` already
written, eviction not yet performed — the store state during the
close's outstanding render I/O. -/
def demoMidClose : PollStore := close_poll_begin demoStore "1"

/-! ## Close-sequencing trace of `close_poll_internal` -/

inductive CloseStep where
  | setEnded
  | fetchMessage
  | editMessage
  | evictFromStore
  deriving DecidableEq, Repr

/-- Which close steps are outbound platform I/O. -/
def CloseStep.isOutboundCall : CloseStep → Bool
  | .fetchMessage => true
  | .editMessage => true
  | _ => false

/-- The ordered attempts `close_poll_internal` makes (bot.py lines
619-637): `ended := true` first; if the channel lookup fails, evict and
return; fetch the message, and if that raises, evict and return;
attempt the edit — its own failure is swallowed by `try/except: pass`,
which is why `editOk` does not change the trace — then evict. -/
def closePollSteps (channelOk fetchOk editOk : Bool) : List CloseStep :=
  CloseStep.setEnded ::
    (if channelOk then
      CloseStep.fetchMessage ::
        (if fetchOk then
          [CloseStep.editMessage, CloseStep.evictFromStore]
         else [CloseStep.evictFromStore])
     else [CloseStep.evictFromStore])

/-! ## Anti-ping strike escalation (bot.py lines 201-217) -/

def STRIKE_RESET_HOURS : Nat := 24
def TIMEOUT_BASE_MINUTES : Nat := 5
def TIMEOUT_MAX_MINUTES : Nat := 120

/-- One `mention_strikes` entry: `{"count": int, "reset_at": ts}`. -/
structure StrikeRecord where
  count : Nat
  resetAt : Nat
  deriving DecidableEq, Repr

/-- `_reset_or_increment_strikes` (bot.py lines 201-209), with the
global `mention_strikes` dict and the `now_ts()` reading passed
explicitly.  Missing or expired entry: replace with count 1 and a fresh
24h window, return 1.  Otherwise increment in place and return the new
count. -/
def reset_or_increment_strikes (strikes : List (Nat × StrikeRecord))
    (authorId : Nat) (ts : Nat) : Nat × List (Nat × StrikeRecord) :=
  match dgetOpt strikes authorId with
  | none =>
    (1, dset strikes authorId ⟨1, ts + STRIKE_RESET_HOURS * 3600⟩)
  | some entry =>
    if ts ≥ entry.resetAt then
      (1, dset strikes authorId ⟨1, ts + STRIKE_RESET_HOURS * 3600⟩)
    else
      (entry.count + 1,
        dset strikes authorId { entry with count := entry.count + 1 })

/-- Fold a sequence of offense timestamps for one author, collecting the
returned escalation levels. -/
def runOffenses (strikes : List (Nat × StrikeRecord)) (authorId : Nat)
    (times : List Nat) : List Nat × List (Nat × StrikeRecord) :=
  times.foldl (fun acc t =>
    let r := reset_or_increment_strikes acc.2 authorId t
    (acc.1 ++ [r.1], r.2)) ([], strikes)

/-- `_timeout_minutes_for_count` (bot.py lines 211-217): first offense
warns only (0 minutes); afterwards `min(5 * 2^(count-2), 120)`. -/
def timeout_minutes_for_count (count : Nat) : Nat :=
  if count ≤ 1 then 0
  else min (TIMEOUT_BASE_MINUTES * 2 ^ (count - 2)) TIMEOUT_MAX_MINUTES

/-! ## Ticket claim (bot.py lines 792-822) -/

def ROLE_INTERNAL_AFFAIRS : Nat := 1377701329996349540
def ROLE_MGMT : Nat := 1377701319841808405
def ROLE_DIRECTORSHIP : Nat := 1377701315576201308
def ROLE_ALT : Nat := 1377701319053283379

/-- The mutable state of a `TicketControls` view. -/
structure TicketControls where
  ticketKey : String
  openerId : Nat
  claimedBy : Option Nat
  deriving DecidableEq, Repr

/-- `TicketControls._can_claim` (bot.py lines 799-810). -/
def can_claim (ticketKey : String) (roles : List Nat) : Bool :=
  let hasAll := roles.any
    (fun r => r == ROLE_MGMT || r == ROLE_DIRECTORSHIP || r == ROLE_ALT)
  if hasAll then true
  else if ticketKey = "ia" ∨ ticketKey = "support" ∨ ticketKey = "department" then
    roles.any (fun r => r == ROLE_INTERNAL_AFFAIRS)
  else if ticketKey = "management" then
    roles.any (fun r => r == ROLE_MGMT) ||
      roles.any (fun r => r == ROLE_DIRECTORSHIP) ||
      roles.any (fun r => r == ROLE_ALT)
  else if ticketKey = "developers" ∨ ticketKey = "partnership" then
    hasAll
  else false

inductive ClaimOutcome where
  | cannotClaim
  | alreadyClaimed
  | claimedNow
  deriving DecidableEq, Repr

/-- `TicketControls.claim` (bot.py lines 812-822), in source order: the
member lookup / eligibility gate runs first ("You cannot claim this
ticket"), the `claimed_by` guard runs second ("Already claimed by ..."),
and only then is `claimed_by` assigned.  `memRoles` is `none` when
`guild.get_member` returns no member. -/
def ticket_claim (t : TicketControls) (actorId : Nat)
    (memRoles : Option (List Nat)) : ClaimOutcome × TicketControls :=
  match memRoles with
  | none => (.cannotClaim, t)
  | some roles =>
    if ¬ can_claim t.ticketKey roles then (.cannotClaim, t)
    else
      match t.claimedBy with
      | some _ => (.alreadyClaimed, t)
      | none => (.claimedNow, { t with claimedBy := some actorId })

/-- Fold a sequence of claim attempts over one ticket. -/
def runClaims (t : TicketControls) (attempts : List (Nat × Option (List Nat))) :
    TicketControls :=
  attempts.foldl (fun s a => (ticket_claim s a.1 a.2).2) t

/-! ## Ticket close sequencing (`close_ticket_with_transcript`,
bot.py lines 846-910, for a text channel) -/

inductive TicketStep where
  | captureHistory
  | createArchiveChannel
  | postArchive
  | notifyOpener
  | destroySurface
  deriving DecidableEq, Repr

/-- The failure environment of one ticket close: whether the history
fetch raises, whether the transcripts category resolves, whether the
archive channel creation succeeds, whether the archive post succeeds,
whether the opener scan finds an opener, whether the DM succeeds, and
whether the channel deletion succeeds. -/
structure TicketCloseEnv where
  historyOk : Bool
  categoryOk : Bool
  createChannelOk : Bool
  sendOk : Bool
  openerFound : Bool
  dmOk : Bool
  deleteOk : Bool
  deriving DecidableEq, Repr

/-- The ordered attempts `close_ticket_with_transcript` makes: capture
the history (its failure is swallowed, leaving a partial transcript);
create the archive channel only if the transcripts category resolves,
and post the transcript only if that creation succeeded (post failure
swallowed); DM the opener only if the opener scan found one (DM failure
swallowed); finally delete the channel (failure swallowed).  The
`historyOk`, `sendOk`, `dmOk` and `deleteOk` flags do not change the
trace because each of those failures is caught by a bare
`try/except`. -/
def closeTicketSteps (env : TicketCloseEnv) : List TicketStep :=
  [TicketStep.captureHistory]
    ++ (if env.categoryOk then
          TicketStep.createArchiveChannel ::
            (if env.createChannelOk then [TicketStep.postArchive] else [])
        else [])
    ++ (if env.openerFound then [TicketStep.notifyOpener] else [])
    ++ [TicketStep.destroySurface]

/-! ## Association-list lemmas -/

section DictLemmas

variable {α β : Type} [DecidableEq α]

theorem dget_dset_self (m : List (α × β)) (k : α) (v d : β) :
    dget (dset m k v) k d = v := by
  induction m with
  | nil => simp [dset, dget]
  | cons e rest ih =>
    by_cases h : e.1 = k <;> simp [dset, dget, h, ih]

theorem dget_dset_ne (m : List (α × β)) (k k' : α) (v d : β)
    (h : ¬ k' = k) : dget (dset m k v) k' d = dget m k' d := by
  have h' : ¬ k = k' := fun hk => h hk.symm
  induction m with
  | nil => simp [dset, dget, h']
  | cons e rest ih =>
    by_cases he : e.1 = k
    · have he' : ¬ e.1 = k' := by rw [he]; exact h'
      simp [dset, dget, he, h', he']
    · by_cases he' : e.1 = k' <;> simp [dset, dget, he, he', h, ih]

theorem dgetOpt_dset_self (m : List (α × β)) (k : α) (v : β) :
    dgetOpt (dset m k v) k = some v := by
  induction m with
  | nil => simp [dset, dgetOpt]
  | cons e rest ih =>
    by_cases h : e.1 = k <;> simp [dset, dgetOpt, h, ih]

theorem dgetOpt_dset_ne (m : List (α × β)) (k k' : α) (v : β)
    (h : ¬ k' = k) : dgetOpt (dset m k v) k' = dgetOpt m k' := by
  have h' : ¬ k = k' := fun hk => h hk.symm
  induction m with
  | nil => simp [dset, dgetOpt, h']
  | cons e rest ih =>
    by_cases he : e.1 = k
    · have he' : ¬ e.1 = k' := by rw [he]; exact h'
      simp [dset, dgetOpt, he, h', he']
    · by_cases he' : e.1 = k' <;> simp [dset, dgetOpt, he, he', h, ih]

theorem dget_of_dgetOpt_none (m : List (α × β)) (k : α) (d : β)
    (h : dgetOpt m k = none) : dget m k d = d := by
  induction m with
  | nil => rfl
  | cons e rest ih =>
    by_cases he : e.1 = k
    · simp [dgetOpt, he] at h
    · simp [dgetOpt, he] at h
      simp [dget, he, ih h]

theorem dget_of_dgetOpt_some (m : List (α × β)) (k : α) (v d : β)
    (h : dgetOpt m k = some v) : dget m k d = v := by
  induction m with
  | nil => simp [dgetOpt] at h
  | cons e rest ih =>
    by_cases he : e.1 = k
    · simp [dgetOpt, he] at h
      simp [dget, he, h]
    · simp [dgetOpt, he] at h
      simp [dget, he, ih h]

theorem mem_of_dgetOpt_eq_some (m : List (α × β)) (k : α) (v : β)
    (h : dgetOpt m k = some v) : (k, v) ∈ m := by
  induction m with
  | nil => simp [dgetOpt] at h
  | cons e rest ih =>
    by_cases he : e.1 = k
    · simp [dgetOpt, he] at h
      have he2 : e = (k, v) := by
        cases e
        simp_all
      rw [← he2]
      exact List.mem_cons_self _ _
    · simp [dgetOpt, he] at h
      exact List.mem_cons_of_mem _ (ih h)

theorem dset_of_dgetOpt_none (m : List (α × β)) (k : α) (v : β)
    (h : dgetOpt m k = none) : dset m k v = m ++ [(k, v)] := by
  induction m with
  | nil => rfl
  | cons e rest ih =>
    by_cases he : e.1 = k
    · simp [dgetOpt, he] at h
    · simp [dgetOpt, he] at h
      simp [dset, he, ih h]

theorem mem_dset_weak (m : List (α × β)) (k : α) (v : β) (f : α × β)
    (h : f ∈ dset m k v) : f = (k, v) ∨ f ∈ m := by
  induction m with
  | nil => simp [dset] at h; left; exact h
  | cons e rest ih =>
    by_cases he : e.1 = k
    · simp [dset, he] at h
      rcases h with h | h
      · left; exact h
      · right; exact List.mem_cons_of_mem _ h
    · simp [dset, he] at h
      rcases h with h | h
      · right; simp [h]
      · rcases ih h with h' | h'
        · left; exact h'
        · right; exact List.mem_cons_of_mem _ h'

theorem nodupKeys_dset (m : List (α × β)) (k : α) (v : β)
    (hnd : NodupKeys m) : NodupKeys (dset m k v) := by
  induction m with
  | nil => simp [dset, NodupKeys]
  | cons e rest ih =>
    rw [NodupKeys, List.pairwise_cons] at hnd
    by_cases he : e.1 = k
    · rw [dset, if_pos he, NodupKeys, List.pairwise_cons]
      exact ⟨fun f hf => by rw [← he]; exact hnd.1 f hf, hnd.2⟩
    · rw [dset, if_neg he, NodupKeys, List.pairwise_cons]
      refine ⟨fun f hf => ?_, ih hnd.2⟩
      rcases mem_dset_weak rest k v f hf with h | h
      · rw [h]; exact he
      · exact hnd.1 f h

theorem dgetOpt_eq_some_of_mem (m : List (α × β)) (k : α) (v : β)
    (hnd : NodupKeys m) (h : (k, v) ∈ m) : dgetOpt m k = some v := by
  induction m with
  | nil => simp at h
  | cons e rest ih =>
    rw [NodupKeys, List.pairwise_cons] at hnd
    rcases List.mem_cons.mp h with h | h
    · rw [← h]
      simp [dgetOpt]
    · have he : ¬ e.1 = k := hnd.1 (k, v) h
      simp [dgetOpt, he, ih hnd.2 h]

theorem dgetOpt_dpop_self (m : List (α × β)) (k : α) :
    dgetOpt (dpop m k) k = none := by
  induction m with
  | nil => rfl
  | cons e rest ih =>
    by_cases he : e.1 = k <;> simp [dpop, he, dgetOpt, ih]

theorem dgetOpt_dpop_ne (m : List (α × β)) (k k' : α) (h : ¬ k' = k) :
    dgetOpt (dpop m k) k' = dgetOpt m k' := by
  have h' : ¬ k = k' := fun hk => h hk.symm
  induction m with
  | nil => rfl
  | cons e rest ih =>
    by_cases he : e.1 = k
    · have he' : ¬ e.1 = k' := by rw [he]; exact h'
      simp [dpop, he, dgetOpt, he', h', ih]
    · by_cases he' : e.1 = k' <;> simp [dpop, he, dgetOpt, he', h, h', ih]

theorem isSome_dgetOpt_dset (m : List (α × β)) (k k' : α) (v : β)
    (h : (dgetOpt m k').isSome) : (dgetOpt (dset m k v) k').isSome := by
  by_cases hk : k' = k
  · rw [hk, dgetOpt_dset_self]; rfl
  · rw [dgetOpt_dset_ne m k k' v hk]; exact h

theorem dget_eq_dget_of_isSome (m : List (α × β)) (k : α) (d d' : β)
    (h : (dgetOpt m k).isSome) : dget m k d = dget m k d' := by
  match hh : dgetOpt m k with
  | some v =>
    rw [dget_of_dgetOpt_some m k v d hh, dget_of_dgetOpt_some m k v d' hh]
  | none => rw [hh] at h; simp at h

end DictLemmas

/-! ## countChoice lemmas -/

section CountChoiceLemmas

theorem countChoice_append (l : List (Nat × Int)) (u : Nat) (i k : Int) :
    countChoice (l ++ [(u, i)]) k
      = countChoice l k + (if i = k then 1 else 0) := by
  induction l with
  | nil => simp [countChoice]
  | cons e rest ih => simp [countChoice, ih]; omega

theorem countChoice_dset (voters : List (Nat × Int)) (u : Nat) (c i k : Int)
    (hnd : NodupKeys voters) (hm : (u, c) ∈ voters) :
    countChoice (dset voters u i) k + (if c = k then 1 else 0)
      = countChoice voters k + (if i = k then 1 else 0) := by
  induction voters with
  | nil => simp at hm
  | cons e rest ih =>
    rw [NodupKeys, List.pairwise_cons] at hnd
    by_cases he : e.1 = u
    · have hec : e = (u, c) := by
        rcases List.mem_cons.mp hm with h | h
        · exact h.symm
        · exact absurd he (hnd.1 (u, c) h)
      rw [dset, if_pos he, hec]
      simp [countChoice]
      omega
    · have hm' : (u, c) ∈ rest := by
        rcases List.mem_cons.mp hm with h | h
        · exact absurd (by rw [← h]) he
        · exact h
      rw [dset, if_neg he]
      simp [countChoice]
      have := ih hnd.2 hm'
      omega

theorem countChoice_pos_of_mem (voters : List (Nat × Int)) (u : Nat)
    (c : Int) (hm : (u, c) ∈ voters) : 0 < countChoice voters c := by
  induction voters with
  | nil => simp at hm
  | cons e rest ih =>
    rcases List.mem_cons.mp hm with h | h
    · rw [← h]; simp [countChoice]
    · have := ih h
      simp [countChoice]
      omega

theorem countChoice_eq_zero (voters : List (Nat × Int)) (k : Int)
    (h : ∀ uv ∈ voters, ¬ uv.2 = k) : countChoice voters k = 0 := by
  induction voters with
  | nil => rfl
  | cons e rest ih =>
    rw [countChoice, if_neg (h e (List.mem_cons_self e rest)),
      ih (fun uv huv => h uv (List.mem_cons_of_mem e huv))]

theorem countChoice_add_length_removeChoice (voters : List (Nat × Int))
    (k : Int) :
    countChoice voters k + (removeChoice voters k).length = voters.length := by
  induction voters with
  | nil => rfl
  | cons e rest ih =>
    by_cases he : e.2 = k <;>
      simp [countChoice, removeChoice, he] <;> omega

theorem countChoice_removeChoice_ne (voters : List (Nat × Int)) (k k' : Int)
    (h : ¬ k' = k) : countChoice (removeChoice voters k) k'
      = countChoice voters k' := by
  have h' : ¬ k = k' := fun hk => h hk.symm
  induction voters with
  | nil => rfl
  | cons e rest ih =>
    by_cases he : e.2 = k
    · have he' : ¬ e.2 = k' := by rw [he]; exact h'
      simp [countChoice, removeChoice, he, he', h, h', ih]
    · by_cases he' : e.2 = k' <;>
        simp [countChoice, removeChoice, he, he', h, h', ih]

theorem countChoice_removeChoice_self (voters : List (Nat × Int)) (k : Int) :
    countChoice (removeChoice voters k) k = 0 := by
  induction voters with
  | nil => rfl
  | cons e rest ih =>
    by_cases he : e.2 = k <;> simp [countChoice, removeChoice, he, ih]

theorem mem_removeChoice (voters : List (Nat × Int)) (k : Int)
    (uv : Nat × Int) (h : uv ∈ removeChoice voters k) :
    uv ∈ voters ∧ ¬ uv.2 = k := by
  induction voters with
  | nil => simp [removeChoice] at h
  | cons e rest ih =>
    by_cases he : e.2 = k
    · rw [removeChoice, if_pos he] at h
      exact ⟨List.mem_cons_of_mem _ (ih h).1, (ih h).2⟩
    · rw [removeChoice, if_neg he] at h
      rcases List.mem_cons.mp h with h' | h'
      · exact ⟨by simp [h'], by rw [h']; exact he⟩
      · exact ⟨List.mem_cons_of_mem _ (ih h').1, (ih h').2⟩

end CountChoiceLemmas

/-! ## Poll invariant lemmas -/

section PollLemmas

theorem applyVoteState_new_eq (p : Poll) (u : Nat) (i : Int)
    (hprev : dgetOpt p.voters u = none) :
    applyVoteState p u i =
      { p with votes := dset p.votes i (dget p.votes i 0 + 1),
               voters := dset p.voters u i } := by
  simp [applyVoteState, hprev]

theorem applyVoteState_switch_eq (p : Poll) (u : Nat) (c i : Int)
    (hprev : dgetOpt p.voters u = some c) :
    applyVoteState p u i =
      { p with votes := dset (dset p.votes c (dget p.votes c 1 - 1)) i
                 (dget (dset p.votes c (dget p.votes c 1 - 1)) i 0 + 1),
               voters := dset p.voters u i } := by
  simp [applyVoteState, hprev]

theorem applyVoteState_ended (p : Poll) (u : Nat) (i : Int) :
    (applyVoteState p u i).ended = p.ended := rfl

theorem pollWF_applyVote_new (p : Poll) (u : Nat) (i : Int)
    (hWF : PollWF p) (hprev : dgetOpt p.voters u = none) :
    PollWF (applyVoteState p u i) := by
  obtain ⟨hndV, hndT, hcnt, hmm⟩ := hWF
  rw [applyVoteState_new_eq p u i hprev]
  refine ⟨nodupKeys_dset _ _ _ hndV, nodupKeys_dset _ _ _ hndT, ?_, ?_⟩
  · intro k
    show dget (dset p.votes i (dget p.votes i 0 + 1)) k 0
      = countChoice (dset p.voters u i) k
    rw [dset_of_dgetOpt_none p.voters u i hprev, countChoice_append]
    by_cases hk : k = i
    · subst hk
      rw [dget_dset_self, hcnt k, if_pos rfl]
    · rw [dget_dset_ne p.votes i k _ 0 hk, hcnt k,
        if_neg (fun hh => hk hh.symm)]
      omega
  · intro uv huv
    show (dgetOpt (dset p.votes i (dget p.votes i 0 + 1)) uv.2).isSome
    rw [dset_of_dgetOpt_none p.voters u i hprev] at huv
    rcases List.mem_append.mp huv with h | h
    · exact isSome_dgetOpt_dset _ _ _ _ (hmm uv h)
    · have huvi : uv = (u, i) := by simpa using h
      rw [huvi]
      simp [dgetOpt_dset_self]

theorem pollWF_applyVote_switch (p : Poll) (u : Nat) (c i : Int)
    (hWF : PollWF p) (hprev : dgetOpt p.voters u = some c) (hne : ¬ c = i) :
    PollWF (applyVoteState p u i) := by
  obtain ⟨hndV, hndT, hcnt, hmm⟩ := hWF
  have hmem : (u, c) ∈ p.voters := mem_of_dgetOpt_eq_some _ _ _ hprev
  have hsome : (dgetOpt p.votes c).isSome := hmm (u, c) hmem
  have hd1 : dget p.votes c 1 = countChoice p.voters c := by
    rw [dget_eq_dget_of_isSome p.votes c 1 0 hsome, hcnt]
  have hpos : 0 < countChoice p.voters c := countChoice_pos_of_mem _ _ _ hmem
  rw [applyVoteState_switch_eq p u c i hprev]
  refine ⟨nodupKeys_dset _ _ _ hndV,
    nodupKeys_dset _ _ _ (nodupKeys_dset _ _ _ hndT), ?_, ?_⟩
  · intro k
    show dget (dset (dset p.votes c (dget p.votes c 1 - 1)) i
        (dget (dset p.votes c (dget p.votes c 1 - 1)) i 0 + 1)) k 0
      = countChoice (dset p.voters u i) k
    have hcc := countChoice_dset p.voters u c i k hndV hmem
    by_cases hk : k = i
    · subst hk
      rw [dget_dset_self,
        dget_dset_ne p.votes c k _ 0 (fun hh => hne hh.symm), hcnt k]
      rw [if_neg hne, if_pos rfl] at hcc
      omega
    · by_cases hkc : k = c
      · subst hkc
        rw [dget_dset_ne _ i k _ 0 hk, dget_dset_self, hd1]
        rw [if_pos rfl, if_neg (fun hh => hk hh.symm)] at hcc
        omega
      · rw [dget_dset_ne _ i k _ 0 hk, dget_dset_ne p.votes c k _ 0 hkc,
          hcnt k]
        rw [if_neg (fun hh => hkc hh.symm), if_neg (fun hh => hk hh.symm)]
          at hcc
        omega
  · intro uv huv
    show (dgetOpt (dset (dset p.votes c (dget p.votes c 1 - 1)) i
        (dget (dset p.votes c (dget p.votes c 1 - 1)) i 0 + 1)) uv.2).isSome
    rcases mem_dset_weak p.voters u i uv huv with h | h
    · rw [h]
      simp [dgetOpt_dset_self]
    · exact isSome_dgetOpt_dset _ _ _ _
        (isSome_dgetOpt_dset _ _ _ _ (hmm uv h))

theorem voteCore_cases (p : Poll) (e : VoteEvent) :
    (voteInteraction.voteCore p e).2 = p ∨
      ∃ i, e.idx = some i ∧
        (voteInteraction.voteCore p e).2 = applyVoteState p e.userId i ∧
        (dgetOpt p.voters e.userId = none ∨
          ∃ c, dgetOpt p.voters e.userId = some c ∧ ¬ c = i) := by
  cases hidx : e.idx with
  | none =>
    left
    simp [voteInteraction.voteCore, hidx]
  | some i =>
    cases hprev : dgetOpt p.voters e.userId with
    | none =>
      right
      exact ⟨i, rfl, by simp [voteInteraction.voteCore, hidx, hprev],
        Or.inl rfl⟩
    | some c =>
      by_cases hci : c = i
      · left
        simp [voteInteraction.voteCore, hidx, hprev, hci]
      · right
        exact ⟨i, rfl, by simp [voteInteraction.voteCore, hidx, hprev, hci],
          Or.inr ⟨c, rfl, hci⟩⟩

theorem voteInteraction_eq_core_or_self (p : Poll) (e : VoteEvent) :
    voteInteraction p e = voteInteraction.voteCore p e ∨
      (voteInteraction p e).2 = p := by
  by_cases hE : p.ended
  · right
    simp [voteInteraction, hE]
  · cases hvr : p.voterRoleId with
    | none =>
      left
      simp [voteInteraction, hE, hvr]
    | some rid =>
      cases hm : e.memRoles with
      | none =>
        right
        simp [voteInteraction, hE, hvr, hm]
      | some roles =>
        by_cases hin : rid ∈ roles
        · left
          simp [voteInteraction, hE, hvr, hm, hin]
        · right
          simp [voteInteraction, hE, hvr, hm, hin]

theorem voteInteraction_cases (p : Poll) (e : VoteEvent) :
    (voteInteraction p e).2 = p ∨
      ∃ i, e.idx = some i ∧
        (voteInteraction p e).2 = applyVoteState p e.userId i ∧
        (dgetOpt p.voters e.userId = none ∨
          ∃ c, dgetOpt p.voters e.userId = some c ∧ ¬ c = i) := by
  rcases voteInteraction_eq_core_or_self p e with h | h
  · rw [h]
    exact voteCore_cases p e
  · left
    exact h

theorem voteInteraction_ended (p : Poll) (e : VoteEvent) :
    ((voteInteraction p e).2).ended = p.ended := by
  rcases voteInteraction_cases p e with h | ⟨i, _, h2, _⟩
  · rw [h]
  · rw [h2, applyVoteState_ended]

theorem pollWF_vote (p : Poll) (e : VoteEvent) (hWF : PollWF p) :
    PollWF ((voteInteraction p e).2) := by
  rcases voteInteraction_cases p e with h | ⟨i, _, h2, h3⟩
  · rw [h]; exact hWF
  · rw [h2]
    rcases h3 with h3 | ⟨c, hc, hne⟩
    · exact pollWF_applyVote_new p e.userId i hWF h3
    · exact pollWF_applyVote_switch p e.userId c i hWF hc hne

theorem pollWF_mkPoll (q : String) (opts : List String) (endTs : Nat)
    (vr : Option Nat) : PollWF (mkPoll q opts endTs vr) :=
  ⟨List.Pairwise.nil, List.Pairwise.nil, fun _ => rfl,
    fun uv huv => absurd huv (List.not_mem_nil uv)⟩

theorem pollWF_runVotes (p : Poll) (evs : List VoteEvent) (hWF : PollWF p) :
    PollWF (runVotes p evs) := by
  induction evs generalizing p with
  | nil => exact hWF
  | cons e rest ih =>
    have hstep : runVotes p (e :: rest)
        = runVotes ((voteInteraction p e).2) rest := rfl
    rw [hstep]
    exact ih _ (pollWF_vote p e hWF)

theorem sum_eq_card (votes : List (Int × Nat)) :
    ∀ voters : List (Nat × Int), NodupKeys votes →
      (∀ k, dget votes k 0 = countChoice voters k) →
      (∀ uv ∈ voters, (dgetOpt votes uv.2).isSome) →
      sumValues votes = voters.length := by
  induction votes with
  | nil =>
    intro voters _ _ hmm
    cases voters with
    | nil => rfl
    | cons uv rest =>
      have := hmm uv (List.mem_cons_self _ _)
      simp [dgetOpt] at this
  | cons e rest ih =>
    intro voters hnd hcnt hmm
    rw [NodupKeys, List.pairwise_cons] at hnd
    obtain ⟨k, v⟩ := e
    have hv : v = countChoice voters k := by
      have := hcnt k
      rw [dget, if_pos rfl] at this
      exact this
    have hrest_none : dgetOpt rest k = none := by
      match hh : dgetOpt rest k with
      | none => rfl
      | some w =>
        exact absurd rfl (hnd.1 (k, w) (mem_of_dgetOpt_eq_some rest k w hh))
    have hcnt' : ∀ k', dget rest k' 0
        = countChoice (removeChoice voters k) k' := by
      intro k'
      by_cases hk : k' = k
      · subst hk
        rw [dget_of_dgetOpt_none rest k' 0 hrest_none,
          countChoice_removeChoice_self]
      · rw [countChoice_removeChoice_ne voters k k' hk]
        have := hcnt k'
        rw [dget, if_neg (fun hh => hk hh.symm)] at this
        exact this
    have hmm' : ∀ uv ∈ removeChoice voters k,
        (dgetOpt rest uv.2).isSome := by
      intro uv huv
      obtain ⟨hin, hneq⟩ := mem_removeChoice voters k uv huv
      have hks : ¬ (k : Int) = uv.2 := fun hh => hneq hh.symm
      have := hmm uv hin
      rw [dgetOpt, if_neg hks] at this
      exact this
    have ihv := ih (removeChoice voters k) hnd.2 hcnt' hmm'
    have hlen := countChoice_add_length_removeChoice voters k
    have hsum : sumValues ((k, v) :: rest) = v + sumValues rest := by
      simp [sumValues]
    rw [hsum, ihv, hv]
    omega

theorem pollWF_sum (p : Poll) (h : PollWF p) :
    sumValues p.votes = p.voters.length :=
  sum_eq_card p.votes p.voters h.2.1 h.2.2.1 h.2.2.2

theorem voteInteraction_of_ended (p : Poll) (e : VoteEvent)
    (h : p.ended = true) :
    voteInteraction p e = (VoteOutcome.endedOrMissing, p) := by
  simp [voteInteraction, h]

theorem voteInteraction_open_gate (p : Poll) (e : VoteEvent)
    (hE : p.ended = false) (hG : GatePasses p e) :
    voteInteraction p e = voteInteraction.voteCore p e := by
  rcases hG with hG | ⟨rid, roles, h1, h2, h3⟩
  · simp [voteInteraction, hE, hG]
  · simp [voteInteraction, hE, h1, h2, h3]

end PollLemmas

/-! ## Poll store lemmas -/

section StoreLemmas

theorem closepoll_cmd_notFound (st : PollStore) (pid : String)
    (vr : Option Nat) (h : dgetOpt st pid = none) :
    closepoll_cmd st pid vr = (CloseOutcome.notFoundOrClosed, st) := by
  simp [closepoll_cmd, h]

theorem auto_close_of_none (st : PollStore) (pid : String)
    (h : dgetOpt st pid = none) : auto_close st pid = st := by
  simp [auto_close, h]

theorem auto_close_of_ended (st : PollStore) (pid : String) (p : Poll)
    (h : dgetOpt st pid = some p) (he : p.ended = true) :
    auto_close st pid = st := by
  simp [auto_close, h, he]

theorem closepoll_snd_eq (st : PollStore) (pid : String) (vr : Option Nat)
    (p : Poll) (h : dgetOpt st pid = some p) :
    ∃ p1, (closepoll_cmd st pid vr).2 = dpop (dset st pid p1) pid := by
  cases vr with
  | none =>
    exact ⟨p, by simp [closepoll_cmd, h, close_poll_internal]⟩
  | some rid =>
    exact ⟨{ p with voterRoleId := some rid },
      by simp [closepoll_cmd, h, close_poll_internal]⟩

theorem closepoll_removes (st : PollStore) (pid : String) (vr : Option Nat)
    (p : Poll) (h : dgetOpt st pid = some p) :
    dgetOpt (closepoll_cmd st pid vr).2 pid = none := by
  obtain ⟨p1, heq⟩ := closepoll_snd_eq st pid vr p h
  rw [heq, dgetOpt_dpop_self]

theorem closepoll_cmd_closed (st : PollStore) (pid : String)
    (vr : Option Nat) (p : Poll) (h : dgetOpt st pid = some p) :
    (closepoll_cmd st pid vr).1 = CloseOutcome.closed := by
  cases vr with
  | none => simp [closepoll_cmd, h]
  | some rid => simp [closepoll_cmd, h]

end StoreLemmas

/-! ## Vote-handler outcome lemmas -/

section VoteOutcomeLemmas

theorem voteCore_malformed (p : Poll) (e : VoteEvent) (hidx : e.idx = none) :
    voteInteraction.voteCore p e = (VoteOutcome.malformed, p) := by
  simp [voteInteraction.voteCore, hidx]

theorem voteCore_same (p : Poll) (e : VoteEvent) (i : Int)
    (hidx : e.idx = some i) (hprev : dgetOpt p.voters e.userId = some i) :
    voteInteraction.voteCore p e = (VoteOutcome.alreadySame, p) := by
  simp [voteInteraction.voteCore, hidx, hprev]

theorem voteCore_applied (p : Poll) (e : VoteEvent) (i : Int)
    (hidx : e.idx = some i)
    (hprev : dgetOpt p.voters e.userId = none ∨
      ∃ c, dgetOpt p.voters e.userId = some c ∧ ¬ c = i) :
    voteInteraction.voteCore p e
      = (VoteOutcome.applied, applyVoteState p e.userId i) := by
  rcases hprev with h | ⟨c, hc, hne⟩
  · simp [voteInteraction.voteCore, hidx, h]
  · simp [voteInteraction.voteCore, hidx, hc, hne]

end VoteOutcomeLemmas

/-! ## Ticket lemmas -/

section TicketLemmas

theorem ticket_claim_preserves (t : TicketControls) (a : Nat)
    (m : Option (List Nat)) (x : Nat) (h : t.claimedBy = some x) :
    ((ticket_claim t a m).2).claimedBy = some x := by
  cases m with
  | none => exact h
  | some roles =>
    by_cases hc : can_claim t.ticketKey roles = true
    · simp [ticket_claim, hc, h]
    · simp [ticket_claim, hc, h]

theorem runClaims_preserves (t : TicketControls) (x : Nat)
    (attempts : List (Nat × Option (List Nat)))
    (h : t.claimedBy = some x) : (runClaims t attempts).claimedBy = some x := by
  induction attempts generalizing t with
  | nil => exact h
  | cons a rest ih =>
    have hstep : runClaims t (a :: rest)
        = runClaims ((ticket_claim t a.1 a.2).2) rest := rfl
    rw [hstep]
    exact ih _ (ticket_claim_preserves t a.1 a.2 x h)

theorem any_claim_all_iff (roles : List Nat) :
    (roles.any fun r =>
        r == ROLE_MGMT || r == ROLE_DIRECTORSHIP || r == ROLE_ALT) = true
      ↔ (ROLE_MGMT ∈ roles ∨ ROLE_DIRECTORSHIP ∈ roles ∨ ROLE_ALT ∈ roles)
    := by
  simp only [List.any_eq_true, Bool.or_eq_true, beq_iff_eq]
  constructor
  · rintro ⟨r, hr, (h | h) | h⟩ <;> subst h
    · exact Or.inl hr
    · exact Or.inr (Or.inl hr)
    · exact Or.inr (Or.inr hr)
  · rintro (h | h | h)
    · exact ⟨_, h, Or.inl (Or.inl rfl)⟩
    · exact ⟨_, h, Or.inl (Or.inr rfl)⟩
    · exact ⟨_, h, Or.inr rfl⟩

theorem any_single_role_iff (roles : List Nat) (rid : Nat) :
    (roles.any fun r => r == rid) = true ↔ rid ∈ roles := by
  simp only [List.any_eq_true, beq_iff_eq]
  constructor
  · rintro ⟨r, hr, h⟩
    subst h
    exact hr
  · intro h
    exact ⟨rid, h, rfl⟩

theorem can_claim_iff (key : String) (roles : List Nat) :
    can_claim key roles = true ↔
      ((ROLE_MGMT ∈ roles ∨ ROLE_DIRECTORSHIP ∈ roles ∨ ROLE_ALT ∈ roles) ∨
        ((key = "ia" ∨ key = "support" ∨ key = "department") ∧
          ROLE_INTERNAL_AFFAIRS ∈ roles)) := by
  simp only [can_claim]
  by_cases hAll : (roles.any fun r =>
      r == ROLE_MGMT || r == ROLE_DIRECTORSHIP || r == ROLE_ALT) = true
  · have hAllP := (any_claim_all_iff roles).mp hAll
    simp [hAll, hAllP]
  · have hAllP : ¬ (ROLE_MGMT ∈ roles ∨ ROLE_DIRECTORSHIP ∈ roles ∨
        ROLE_ALT ∈ roles) := fun h => hAll ((any_claim_all_iff roles).mpr h)
    have hAll' : (roles.any fun r =>
        r == ROLE_MGMT || r == ROLE_DIRECTORSHIP || r == ROLE_ALT) = false := by
      rwa [Bool.not_eq_true] at hAll
    by_cases hkey : key = "ia" ∨ key = "support" ∨ key = "department"
    · simp only [hAll', Bool.false_eq_true, if_false, if_pos hkey,
        any_single_role_iff]
      tauto
    · by_cases hmg : key = "management"
      · simp only [hAll', Bool.false_eq_true, if_false, if_neg hkey,
          if_pos hmg, Bool.or_eq_true, any_single_role_iff]
        tauto
      · by_cases hdp : key = "developers" ∨ key = "partnership"
        · simp only [hAll', Bool.false_eq_true, if_false, if_neg hkey,
            if_neg hmg, if_pos hdp]
          tauto
        · simp only [hAll', Bool.false_eq_true, if_false, if_neg hkey,
            if_neg hmg, if_neg hdp]
          tauto

end TicketLemmas

/-! ## Miscellaneous helper lemmas -/

section MiscLemmas

theorem pollEndTs_none (nowMs : Nat) : pollEndTs nowMs none = nowMs + 3600000
    := by
  simp [pollEndTs, clampDuration]

theorem pollEndTs_nonpos (nowMs : Nat) (d : Int) (h : d ≤ 0) :
    pollEndTs nowMs (some d) = nowMs + 3600000 := by
  have hd1 : d < 1 := by omega
  simp [pollEndTs, clampDuration, hd1]

end MiscLemmas

/-! ## Claims -/

/-- Claim C1: for every poll and every sequence of vote applications,
the sum of all tally counts equals the number of (distinct-keyed)
entries in the voters dict, and once `ended` is true the vote handler
leaves the poll completely unchanged. -/
theorem C1_tally_sum_and_ended_frozen :
    (∀ (q : String) (opts : List String) (endTs : Nat) (vr : Option Nat)
        (evs : List VoteEvent),
      sumValues (runVotes (mkPoll q opts endTs vr) evs).votes
        = (runVotes (mkPoll q opts endTs vr) evs).voters.length ∧
      NodupKeys (runVotes (mkPoll q opts endTs vr) evs).voters) ∧
    (∀ (p : Poll) (e : VoteEvent), p.ended = true →
      voteInteraction p e = (VoteOutcome.endedOrMissing, p)) := by
  constructor
  · intro q opts endTs vr evs
    have hWF := pollWF_runVotes _ evs (pollWF_mkPoll q opts endTs vr)
    exact ⟨pollWF_sum _ hWF, hWF.1⟩
  · intro p e h
    exact voteInteraction_of_ended p e h

/-- Witness for C1 at the spec's scenario poll and at a concrete ended
poll. -/
theorem C1_witness :
    (sumValues pizzaFinal.votes = pizzaFinal.voters.length ∧
      NodupKeys pizzaFinal.voters) ∧
    voteInteraction demoEnded ⟨5, none, some 0⟩
      = (VoteOutcome.endedOrMissing, demoEnded) :=
  ⟨C1_tally_sum_and_ended_frozen.1 "Pizza or Tacos?" ["Pizza", "Tacos"] 0
      none [⟨1, none, some 0⟩, ⟨2, none, some 1⟩, ⟨1, none, some 1⟩],
    C1_tally_sum_and_ended_frozen.2 demoEnded ⟨5, none, some 0⟩ rfl⟩

/-- Claim C2: on an open poll that passes the voter-role gate, voting
the same option again reports already-voted and changes nothing;
switching decrements the previous option's tally by exactly one (it was
positive, so the floor at 0 is not hit), increments the new option's
tally by exactly one and records the new choice; a first vote
increments the chosen option and records it; and the spec's
Pizza/Tacos scenario ends with tally `{0: 0, 1: 2}` and voters
`{A: 1, B: 1}`. -/
theorem C2_applyVote_semantics :
    (∀ (p : Poll) (e : VoteEvent) (i : Int),
        p.ended = false → GatePasses p e → e.idx = some i →
        dgetOpt p.voters e.userId = some i →
        voteInteraction p e = (VoteOutcome.alreadySame, p)) ∧
    (∀ (p : Poll) (e : VoteEvent) (i c : Int),
        PollWF p → p.ended = false → GatePasses p e → e.idx = some i →
        dgetOpt p.voters e.userId = some c → ¬ c = i →
        (voteInteraction p e).1 = VoteOutcome.applied ∧
        0 < dget p.votes c 0 ∧
        dget ((voteInteraction p e).2).votes c 0 = dget p.votes c 0 - 1 ∧
        dget ((voteInteraction p e).2).votes i 0 = dget p.votes i 0 + 1 ∧
        dgetOpt ((voteInteraction p e).2).voters e.userId = some i) ∧
    (∀ (p : Poll) (e : VoteEvent) (i : Int),
        p.ended = false → GatePasses p e → e.idx = some i →
        dgetOpt p.voters e.userId = none →
        (voteInteraction p e).1 = VoteOutcome.applied ∧
        dget ((voteInteraction p e).2).votes i 0 = dget p.votes i 0 + 1 ∧
        dgetOpt ((voteInteraction p e).2).voters e.userId = some i) ∧
    pizzaFinal.votes = [(0, 0), (1, 2)] ∧
    pizzaFinal.voters = [(1, 1), (2, 1)] := by
  refine ⟨?_, ?_, ?_, by decide, by decide⟩
  · intro p e i hE hG hidx hprev
    rw [voteInteraction_open_gate p e hE hG]
    exact voteCore_same p e i hidx hprev
  · intro p e i c hWF hE hG hidx hprev hne
    obtain ⟨hndV, hndT, hcnt, hmm⟩ := hWF
    have hmem := mem_of_dgetOpt_eq_some _ _ _ hprev
    have hsome := hmm (e.userId, c) hmem
    have hveq : voteInteraction p e
        = (VoteOutcome.applied, applyVoteState p e.userId i) := by
      rw [voteInteraction_open_gate p e hE hG]
      exact voteCore_applied p e i hidx (Or.inr ⟨c, hprev, hne⟩)
    rw [hveq, applyVoteState_switch_eq p e.userId c i hprev]
    refine ⟨rfl, ?_, ?_, ?_, ?_⟩
    · rw [hcnt c]
      exact countChoice_pos_of_mem _ _ _ hmem
    · show dget (dset (dset p.votes c (dget p.votes c 1 - 1)) i
          (dget (dset p.votes c (dget p.votes c 1 - 1)) i 0 + 1)) c 0
        = dget p.votes c 0 - 1
      rw [dget_dset_ne _ i c _ 0 hne, dget_dset_self,
        dget_eq_dget_of_isSome p.votes c 1 0 hsome]
    · show dget (dset (dset p.votes c (dget p.votes c 1 - 1)) i
          (dget (dset p.votes c (dget p.votes c 1 - 1)) i 0 + 1)) i 0
        = dget p.votes i 0 + 1
      rw [dget_dset_self,
        dget_dset_ne p.votes c i _ 0 (fun hh => hne hh.symm)]
    · show dgetOpt (dset p.voters e.userId i) e.userId = some i
      exact dgetOpt_dset_self _ _ _
  · intro p e i hE hG hidx hprev
    have hveq : voteInteraction p e
        = (VoteOutcome.applied, applyVoteState p e.userId i) := by
      rw [voteInteraction_open_gate p e hE hG]
      exact voteCore_applied p e i hidx (Or.inl hprev)
    rw [hveq, applyVoteState_new_eq p e.userId i hprev]
    refine ⟨rfl, ?_, ?_⟩
    · show dget (dset p.votes i (dget p.votes i 0 + 1)) i 0
        = dget p.votes i 0 + 1
      rw [dget_dset_self]
    · show dgetOpt (dset p.voters e.userId i) e.userId = some i
      exact dgetOpt_dset_self _ _ _

/-- Witness for C2: A's switch from option 0 to option 1 after A voted 0
and B voted 1. -/
theorem C2_witness :
    (voteInteraction pizzaAfterTwo ⟨1, none, some 1⟩).1
      = VoteOutcome.applied ∧
    0 < dget pizzaAfterTwo.votes 0 0 ∧
    dget ((voteInteraction pizzaAfterTwo ⟨1, none, some 1⟩).2).votes 0 0
      = dget pizzaAfterTwo.votes 0 0 - 1 ∧
    dget ((voteInteraction pizzaAfterTwo ⟨1, none, some 1⟩).2).votes 1 0
      = dget pizzaAfterTwo.votes 1 0 + 1 ∧
    dgetOpt ((voteInteraction pizzaAfterTwo ⟨1, none, some 1⟩).2).voters 1
      = some 1 :=
  C2_applyVote_semantics.2.1 pizzaAfterTwo ⟨1, none, some 1⟩ 1 0
    (pollWF_runVotes pizzaStart _
      (pollWF_mkPoll "Pizza or Tacos?" ["Pizza", "Tacos"] 0 none))
    rfl (Or.inl rfl) rfl (by decide) (by decide)

/-- Claim C3 counterexample: a parseable out-of-bounds index (2 on a
2-option poll) is not rejected — the handler mutates both the tally and
the voters dict, so the claimed InvalidOption no-op does not exist in
the code. -/
theorem C3_counterexample :
    ((mkPoll "q" ["a", "b"] 0 none).options.length : Int) ≤ 2 ∧
    (voteInteraction (mkPoll "q" ["a", "b"] 0 none) ⟨1, none, some 2⟩).1
      = VoteOutcome.applied ∧
    ((voteInteraction (mkPoll "q" ["a", "b"] 0 none) ⟨1, none, some 2⟩).2).votes
      = [(2, 1)] ∧
    ¬ (voteInteraction (mkPoll "q" ["a", "b"] 0 none) ⟨1, none, some 2⟩).2
      = mkPoll "q" ["a", "b"] 0 none := by decide

/-- Claim C3 amended: a vote whose index fails integer parsing is
silently dropped with no state change; a successfully parsed index is
never bounds-checked — any integer index, in bounds or not, is applied
like a normal vote and recorded as the user's choice. -/
theorem C3_amended_no_bounds_check :
    (∀ (p : Poll) (e : VoteEvent), p.ended = false → GatePasses p e →
        e.idx = none →
        voteInteraction p e = (VoteOutcome.malformed, p)) ∧
    (∀ (p : Poll) (e : VoteEvent) (i : Int), p.ended = false →
        GatePasses p e → e.idx = some i →
        ¬ dgetOpt p.voters e.userId = some i →
        voteInteraction p e
          = (VoteOutcome.applied, applyVoteState p e.userId i) ∧
        dgetOpt ((voteInteraction p e).2).voters e.userId = some i) := by
  constructor
  · intro p e hE hG hidx
    rw [voteInteraction_open_gate p e hE hG]
    exact voteCore_malformed p e hidx
  · intro p e i hE hG hidx hprev
    have hdisj : dgetOpt p.voters e.userId = none ∨
        ∃ c, dgetOpt p.voters e.userId = some c ∧ ¬ c = i := by
      cases hq : dgetOpt p.voters e.userId with
      | none => exact Or.inl rfl
      | some c =>
        refine Or.inr ⟨c, rfl, fun hc => hprev ?_⟩
        rw [hq, hc]
    have hveq : voteInteraction p e
        = (VoteOutcome.applied, applyVoteState p e.userId i) := by
      rw [voteInteraction_open_gate p e hE hG]
      exact voteCore_applied p e i hidx hdisj
    refine ⟨hveq, ?_⟩
    rw [hveq]
    show dgetOpt (dset p.voters e.userId i) e.userId = some i
    exact dgetOpt_dset_self _ _ _

/-- Witness for the amended C3: a malformed index is dropped, and the
out-of-bounds index 5 on a 2-option poll is recorded. -/
theorem C3_amended_witness :
    voteInteraction (mkPoll "q" ["a", "b"] 0 none) ⟨1, none, none⟩
      = (VoteOutcome.malformed, mkPoll "q" ["a", "b"] 0 none) ∧
    dgetOpt ((voteInteraction (mkPoll "q" ["a", "b"] 0 none)
        ⟨1, none, some 5⟩).2).voters 1 = some 5 :=
  ⟨C3_amended_no_bounds_check.1 (mkPoll "q" ["a", "b"] 0 none)
      ⟨1, none, none⟩ rfl (Or.inl rfl) rfl,
    (C3_amended_no_bounds_check.2 (mkPoll "q" ["a", "b"] 0 none)
      ⟨1, none, some 5⟩ 5 rfl (Or.inl rfl) rfl (by decide)).2⟩

/-- Claim C4 counterexample: the mid-close store state — the poll still
in `active_polls` with `ended` already true, reachable because
`close_poll_internal` writes `ended := true` before its render awaits
and evicts only afterwards — is found by a second manual close, which
reports `closed` (so `close_poll_internal` and its render/eviction side
effects run a second time) and mutates the store, instead of the
claimed AlreadyClosed no-op. -/
theorem C4_counterexample :
    ReachableStore demoMidClose ∧
    dgetOpt demoMidClose "1" = some { demoPoll with ended := true } ∧
    ({ demoPoll with ended := true } : Poll).ended = true ∧
    (closepoll_cmd demoMidClose "1" none).1 = CloseOutcome.closed ∧
    ¬ (closepoll_cmd demoMidClose "1" none).1
      = CloseOutcome.notFoundOrClosed ∧
    ¬ (closepoll_cmd demoMidClose "1" none).2 = demoMidClose :=
  ⟨ReachableStore.closeBegin demoStore "1"
      (ReachableStore.create [] "1" "q" ["a", "b"] 0 (some 1) none
        ReachableStore.empty),
    by decide, rfl, by decide, by decide, by decide⟩

/-- Claim C4 amended: close idempotence holds against the auto-close
timer but not against the manual command.  The timer callback no-ops
when the poll is missing or its `ended` flag is true; once a close has
run to completion the poll is evicted, so any later close attempt
(manual or timer) finds nothing and no-ops with no state change; but
`closepoll_cmd` itself never checks `ended`, so a manual close that
finds a poll still stored with `ended` already true — the state while
another close's render I/O is outstanding — reports `closed` and runs
the close side effects a second time. -/
theorem C4_close_idempotence_amended :
    (∀ (st : PollStore) (pid : String) (vr : Option Nat),
        dgetOpt st pid = none →
        auto_close st pid = st ∧
        closepoll_cmd st pid vr = (CloseOutcome.notFoundOrClosed, st)) ∧
    (∀ (st : PollStore) (pid : String) (q : Poll),
        dgetOpt st pid = some q → q.ended = true →
        auto_close st pid = st) ∧
    (∀ (st : PollStore) (pid : String) (p : Poll) (vr1 vr2 : Option Nat),
        dgetOpt st pid = some p →
        dgetOpt (closepoll_cmd st pid vr1).2 pid = none ∧
        closepoll_cmd (closepoll_cmd st pid vr1).2 pid vr2
          = (CloseOutcome.notFoundOrClosed, (closepoll_cmd st pid vr1).2) ∧
        auto_close (closepoll_cmd st pid vr1).2 pid
          = (closepoll_cmd st pid vr1).2) ∧
    (∀ (st : PollStore) (pid : String) (p : Poll) (vr : Option Nat),
        dgetOpt st pid = some p → p.ended = true →
        (closepoll_cmd st pid vr).1 = CloseOutcome.closed) := by
  refine ⟨?_, ?_, ?_, ?_⟩
  · intro st pid vr h
    exact ⟨auto_close_of_none st pid h, closepoll_cmd_notFound st pid vr h⟩
  · intro st pid q hq he
    exact auto_close_of_ended st pid q hq he
  · intro st pid p vr1 vr2 hp
    have hnone := closepoll_removes st pid vr1 p hp
    exact ⟨hnone, closepoll_cmd_notFound _ pid vr2 hnone,
      auto_close_of_none _ pid hnone⟩
  · intro st pid p vr hp _
    exact closepoll_cmd_closed st pid vr p hp

/-- Witness for the amended C4: the timer no-ops on an empty store and
on a stored ended poll; after a completed close of `demoStore` both
paths no-op; and the manual close of the mid-close state still reports
`closed`. -/
theorem C4_amended_witness :
    (auto_close [] "1" = [] ∧
      closepoll_cmd [] "1" none = (CloseOutcome.notFoundOrClosed, [])) ∧
    auto_close [("1", demoEnded)] "1" = [("1", demoEnded)] ∧
    (dgetOpt (closepoll_cmd demoStore "1" none).2 "1" = none ∧
      closepoll_cmd (closepoll_cmd demoStore "1" none).2 "1" none
        = (CloseOutcome.notFoundOrClosed, (closepoll_cmd demoStore "1" none).2) ∧
      auto_close (closepoll_cmd demoStore "1" none).2 "1"
        = (closepoll_cmd demoStore "1" none).2) ∧
    (closepoll_cmd demoMidClose "1" none).1 = CloseOutcome.closed :=
  ⟨C4_close_idempotence_amended.1 [] "1" none rfl,
    C4_close_idempotence_amended.2.1 [("1", demoEnded)] "1" demoEnded
      (by decide) rfl,
    C4_close_idempotence_amended.2.2.1 demoStore "1" demoPoll none none
      (by decide),
    C4_close_idempotence_amended.2.2.2 demoMidClose "1"
      { demoPoll with ended := true } none (by decide) rfl⟩

/-- Claim C5: in every control path of `close_poll_internal` — channel
lookup failing, message fetch raising, or the final edit raising — the
`ended := true` write is the first step, strictly before any outbound
I/O attempt, the poll is evicted from the store exactly once, and the
eviction is the last step regardless of I/O success or failure. -/
theorem C5_close_effect_ordering :
    ∀ channelOk fetchOk editOk : Bool,
      (closePollSteps channelOk fetchOk editOk).head?
        = some CloseStep.setEnded ∧
      (closePollSteps channelOk fetchOk editOk).getLast?
        = some CloseStep.evictFromStore ∧
      (closePollSteps channelOk fetchOk editOk).count
        CloseStep.evictFromStore = 1 ∧
      CloseStep.isOutboundCall CloseStep.setEnded = false := by decide

/-- Claim C6: a missing or expired strike record is replaced by a fresh
record with count 1 and a 24-hour window and level 1 is returned;
otherwise the count is incremented and returned.  Offenses at hours
0 through 5 yield levels 1 through 6, and the next offense at hour 25
resets to level 1. -/
theorem C6_strike_windowing :
    (∀ (strikes : List (Nat × StrikeRecord)) (u ts : Nat),
        dgetOpt strikes u = none →
        reset_or_increment_strikes strikes u ts
          = (1, dset strikes u ⟨1, ts + STRIKE_RESET_HOURS * 3600⟩)) ∧
    (∀ (strikes : List (Nat × StrikeRecord)) (u ts : Nat)
        (entry : StrikeRecord),
        dgetOpt strikes u = some entry → ts ≥ entry.resetAt →
        reset_or_increment_strikes strikes u ts
          = (1, dset strikes u ⟨1, ts + STRIKE_RESET_HOURS * 3600⟩)) ∧
    (∀ (strikes : List (Nat × StrikeRecord)) (u ts : Nat)
        (entry : StrikeRecord),
        dgetOpt strikes u = some entry → ts < entry.resetAt →
        reset_or_increment_strikes strikes u ts
          = (entry.count + 1,
             dset strikes u { entry with count := entry.count + 1 })) ∧
    (runOffenses [] 7 [0, 3600, 7200, 10800, 14400, 18000]).1
      = [1, 2, 3, 4, 5, 6] ∧
    (reset_or_increment_strikes
        (runOffenses [] 7 [0, 3600, 7200, 10800, 14400, 18000]).2 7
        (25 * 3600)).1 = 1 := by
  refine ⟨?_, ?_, ?_, by decide, by decide⟩
  · intro strikes u ts h
    simp [reset_or_increment_strikes, h]
  · intro strikes u ts entry h hge
    simp [reset_or_increment_strikes, h, hge]
  · intro strikes u ts entry h hlt
    have hnge : ¬ ts ≥ entry.resetAt := by omega
    simp [reset_or_increment_strikes, h, hnge]

/-- Witness for C6 at a fresh user, an in-window record and an expired
record. -/
theorem C6_witness :
    reset_or_increment_strikes [] 7 100
      = (1, dset [] 7 ⟨1, 100 + STRIKE_RESET_HOURS * 3600⟩) ∧
    reset_or_increment_strikes [(7, ⟨2, 500⟩)] 7 100
      = (3, dset [(7, ⟨2, 500⟩)] 7 ⟨3, 500⟩) ∧
    reset_or_increment_strikes [(7, ⟨2, 500⟩)] 7 500
      = (1, dset [(7, ⟨2, 500⟩)] 7 ⟨1, 500 + STRIKE_RESET_HOURS * 3600⟩) :=
  ⟨C6_strike_windowing.1 [] 7 100 rfl,
    C6_strike_windowing.2.2.1 [(7, ⟨2, 500⟩)] 7 100 ⟨2, 500⟩ rfl
      (by decide),
    C6_strike_windowing.2.1 [(7, ⟨2, 500⟩)] 7 500 ⟨2, 500⟩ rfl
      (by decide)⟩

/-- Claim C7: the escalation action is a pure function of the level —
levels 0 and 1 warn only (0 minutes), level `l ≥ 2` is timed out for
`min(120, 5 * 2^(l-2))` minutes, so levels 2..6 give 5, 10, 20, 40, 80
minutes and every level from 7 up (level 20 included) gives exactly 120
minutes, never more. -/
theorem C7_timeout_ladder :
    (∀ l : Nat, l ≤ 1 → timeout_minutes_for_count l = 0) ∧
    (∀ l : Nat, 2 ≤ l →
        timeout_minutes_for_count l = min 120 (5 * 2 ^ (l - 2))) ∧
    timeout_minutes_for_count 2 = 5 ∧
    timeout_minutes_for_count 3 = 10 ∧
    timeout_minutes_for_count 4 = 20 ∧
    timeout_minutes_for_count 5 = 40 ∧
    timeout_minutes_for_count 6 = 80 ∧
    (∀ l : Nat, 7 ≤ l → timeout_minutes_for_count l = 120) ∧
    (∀ l : Nat, timeout_minutes_for_count l ≤ 120) ∧
    timeout_minutes_for_count 20 = 120 := by
  refine ⟨?_, ?_, by decide, by decide, by decide, by decide, by decide,
    ?_, ?_, by decide⟩
  · intro l h
    rw [timeout_minutes_for_count, if_pos h]
  · intro l h
    rw [timeout_minutes_for_count, if_neg (by omega)]
    exact Nat.min_comm _ _
  · intro l h
    rw [timeout_minutes_for_count, if_neg (by omega)]
    have h32 : (2 : Nat) ^ 5 ≤ 2 ^ (l - 2) :=
      Nat.pow_le_pow_right (by omega) (by omega)
    have h160 : (120 : Nat) ≤ TIMEOUT_BASE_MINUTES * 2 ^ (l - 2) := by
      have := Nat.mul_le_mul_left 5 h32
      rw [TIMEOUT_BASE_MINUTES]
      omega
    exact min_eq_right h160
  · intro l
    by_cases h : l ≤ 1
    · rw [timeout_minutes_for_count, if_pos h]
      exact Nat.zero_le _
    · rw [timeout_minutes_for_count, if_neg h]
      exact min_le_right _ _

/-- Witness for C7 at levels 1, 9 and 13. -/
theorem C7_witness :
    timeout_minutes_for_count 1 = 0 ∧
    timeout_minutes_for_count 9 = min 120 (5 * 2 ^ 7) ∧
    timeout_minutes_for_count 9 = 120 ∧
    timeout_minutes_for_count 13 ≤ 120 :=
  ⟨C7_timeout_ladder.1 1 (by decide),
    C7_timeout_ladder.2.1 9 (by decide),
    C7_timeout_ladder.2.2.2.2.2.2.2.1 9 (by decide),
    C7_timeout_ladder.2.2.2.2.2.2.2.2.1 13⟩

/-- Claim C8 counterexample: an ineligible actor pressing Claim on an
already-claimed management ticket is answered with the eligibility
failure, not AlreadyClaimed — the eligibility gate runs before the
claimed-by guard, so the already-claimed answer is not
actor-independent. -/
theorem C8_counterexample :
    (⟨"management", 10, some 1⟩ : TicketControls).claimedBy = some 1 ∧
    can_claim "management" [] = false ∧
    (ticket_claim ⟨"management", 10, some 1⟩ 2 (some [])).1
      = ClaimOutcome.cannotClaim ∧
    ¬ (ticket_claim ⟨"management", 10, some 1⟩ 2 (some [])).1
      = ClaimOutcome.alreadyClaimed := by decide

/-- Claim C8 amended: the eligibility gate runs first — an actor whose
member lookup fails or who fails the claim-eligibility predicate gets
the cannot-claim answer even on an already-claimed ticket; an eligible
actor on a claimed ticket gets AlreadyClaimed with no change; an
eligible actor on an unclaimed ticket becomes the claimer, and a
recorded claimer is never changed by any later claim attempt.
Eligibility holds exactly for the claim-all roles (management,
directorship, ALT) on every key, plus the Internal Affairs role on the
ia, support and department keys. -/
theorem C8_claim_rules_amended :
    (∀ (t : TicketControls) (a : Nat),
        ticket_claim t a none = (ClaimOutcome.cannotClaim, t)) ∧
    (∀ (t : TicketControls) (a : Nat) (roles : List Nat),
        can_claim t.ticketKey roles = false →
        ticket_claim t a (some roles) = (ClaimOutcome.cannotClaim, t)) ∧
    (∀ (t : TicketControls) (a x : Nat) (roles : List Nat),
        can_claim t.ticketKey roles = true → t.claimedBy = some x →
        ticket_claim t a (some roles) = (ClaimOutcome.alreadyClaimed, t)) ∧
    (∀ (t : TicketControls) (a : Nat) (roles : List Nat),
        can_claim t.ticketKey roles = true → t.claimedBy = none →
        ticket_claim t a (some roles)
          = (ClaimOutcome.claimedNow, { t with claimedBy := some a })) ∧
    (∀ (t : TicketControls) (x : Nat)
        (attempts : List (Nat × Option (List Nat))),
        t.claimedBy = some x → (runClaims t attempts).claimedBy = some x) ∧
    (∀ (key : String) (roles : List Nat),
        can_claim key roles = true ↔
          ((ROLE_MGMT ∈ roles ∨ ROLE_DIRECTORSHIP ∈ roles ∨
              ROLE_ALT ∈ roles) ∨
            ((key = "ia" ∨ key = "support" ∨ key = "department") ∧
              ROLE_INTERNAL_AFFAIRS ∈ roles))) := by
  refine ⟨fun t a => rfl, ?_, ?_, ?_, fun t x a h => runClaims_preserves t x a h,
    can_claim_iff⟩
  · intro t a roles h
    simp [ticket_claim, h]
  · intro t a x roles hce hcb
    simp [ticket_claim, hce, hcb]
  · intro t a roles hce hcb
    simp [ticket_claim, hce, hcb]

/-- Witness for the amended C8: a management-role actor claims an
unclaimed ia ticket; a second eligible actor then gets AlreadyClaimed;
an ineligible actor gets cannot-claim; and the claimer survives later
attempts. -/
theorem C8_witness :
    can_claim "ia" [ROLE_MGMT] = true ∧
    ticket_claim ⟨"ia", 10, none⟩ 2 (some [ROLE_MGMT])
      = (ClaimOutcome.claimedNow, ⟨"ia", 10, some 2⟩) ∧
    ticket_claim ⟨"ia", 10, some 2⟩ 3 (some [ROLE_MGMT])
      = (ClaimOutcome.alreadyClaimed, ⟨"ia", 10, some 2⟩) ∧
    ticket_claim ⟨"ia", 10, some 2⟩ 3 (some [])
      = (ClaimOutcome.cannotClaim, ⟨"ia", 10, some 2⟩) ∧
    (runClaims ⟨"ia", 10, some 2⟩
        [(3, some [ROLE_MGMT]), (4, some [ROLE_ALT])]).claimedBy = some 2 :=
  ⟨by decide,
    C8_claim_rules_amended.2.2.2.1 ⟨"ia", 10, none⟩ 2 [ROLE_MGMT]
      (by decide) rfl,
    C8_claim_rules_amended.2.2.1 ⟨"ia", 10, some 2⟩ 3 2 [ROLE_MGMT]
      (by decide) rfl,
    C8_claim_rules_amended.2.1 ⟨"ia", 10, some 2⟩ 3 []
      (by decide),
    C8_claim_rules_amended.2.2.2.2.1 ⟨"ia", 10, some 2⟩ 2
      [(3, some [ROLE_MGMT]), (4, some [ROLE_ALT])] rfl⟩

/-- Claim C9: for every combination of step failures, the ticket close
trace starts with the history capture, ends with the destruction of the
conversation surface, follows the fixed capture, archive-delivery,
opener-notification, destruction order, and both the capture and the
destruction are always attempted — no earlier failure aborts a later
step and nothing is rolled back. -/
theorem C9_ticket_close_sequence :
    ∀ env : TicketCloseEnv,
      (closeTicketSteps env).head? = some TicketStep.captureHistory ∧
      (closeTicketSteps env).getLast? = some TicketStep.destroySurface ∧
      List.Sublist (closeTicketSteps env)
        [TicketStep.captureHistory, TicketStep.createArchiveChannel,
         TicketStep.postArchive, TicketStep.notifyOpener,
         TicketStep.destroySurface] ∧
      TicketStep.captureHistory ∈ closeTicketSteps env ∧
      TicketStep.destroySurface ∈ closeTicketSteps env := by
  intro env
  obtain ⟨h, c, cc, s, o, d, dl⟩ := env
  revert h c cc s o d dl
  decide

/-- Claim C10: a poll created with an omitted, zero or negative duration
is not rejected — the duration is clamped to 1 hour, so the stored
poll's end timestamp is the creation time plus exactly one hour. -/
theorem C10_duration_clamped :
    (∀ nowMs : Nat, pollEndTs nowMs none = nowMs + 3600000) ∧
    (∀ (nowMs : Nat) (d : Int), d ≤ 0 →
        pollEndTs nowMs (some d) = nowMs + 3600000) ∧
    (∀ (st : PollStore) (pid q : String) (opts : List String)
        (nowMs : Nat) (vr : Option Nat),
        ¬ opts.length < 2 → ¬ opts.length > 10 →
        dgetOpt (poll_cmd st pid q opts nowMs none vr) pid
          = some (mkPoll q opts (nowMs + 3600000) vr)) ∧
    (∀ (st : PollStore) (pid q : String) (opts : List String)
        (nowMs : Nat) (vr : Option Nat) (d : Int), d ≤ 0 →
        ¬ opts.length < 2 → ¬ opts.length > 10 →
        dgetOpt (poll_cmd st pid q opts nowMs (some d) vr) pid
          = some (mkPoll q opts (nowMs + 3600000) vr)) := by
  refine ⟨pollEndTs_none, pollEndTs_nonpos, ?_, ?_⟩
  · intro st pid q opts nowMs vr h2 h10
    rw [poll_cmd, if_neg h2, if_neg h10, pollEndTs_none, dgetOpt_dset_self]
  · intro st pid q opts nowMs vr d hd h2 h10
    rw [poll_cmd, if_neg h2, if_neg h10, pollEndTs_nonpos nowMs d hd,
      dgetOpt_dset_self]

/-- Witness for C10 with duration omitted, zero and negative. -/
theorem C10_witness :
    pollEndTs 5 none = 5 + 3600000 ∧
    pollEndTs 5 (some 0) = 5 + 3600000 ∧
    pollEndTs 5 (some (-3)) = 5 + 3600000 ∧
    dgetOpt (poll_cmd [] "1" "q" ["a", "b"] 5 (some 0) none) "1"
      = some (mkPoll "q" ["a", "b"] (5 + 3600000) none) :=
  ⟨C10_duration_clamped.1 5,
    C10_duration_clamped.2.1 5 0 (by decide),
    C10_duration_clamped.2.1 5 (-3) (by decide),
    C10_duration_clamped.2.2.2 [] "1" "q" ["a", "b"] 5 none 0 (by decide)
      (by decide) (by decide)⟩

end Bot
